import Mathlib

/-
Verification of the goldenlayouteditor preview pipeline: a shallow embedding
of the handler registry, the web/typst preview handlers, the service-worker
virtual file server, the render orchestration on edit events, and the
project-file operations, together with theorems settling the spec claims.

JavaScript string primitives (split, replace, toLowerCase) are embedded as
structurally recursive functions over character lists so that every
definition evaluates definitionally.
-/

namespace GLE

/-- JavaScript `s.split(sep)` for a one-character separator: split at every
occurrence, keeping empty pieces (so the result is never empty). -/
def splitOnChar (sep : Char) : List Char → List (List Char)
  | [] => [[]]
  | c :: rest =>
    match splitOnChar sep rest with
    | [] => [[]]
    | g :: gs => if c = sep then [] :: g :: gs else (c :: g) :: gs

/-- JavaScript `toLowerCase`, which agrees with per-character `Char.toLower`
on the ASCII file names and extensions involved here. -/
def toLowerStr (s : String) : String :=
  String.mk (s.data.map Char.toLower)

/-- Extension extraction as written throughout the sources:
`fileName.split('.').pop().toLowerCase()` (src/src/handlers/index.js line 85,
src/unnamed/part_001 lines 13 and 351, src/public/worker.js line 6).
`split` never yields an empty array, so `pop()` is the last element. -/
def extOf (fileName : String) : String :=
  toLowerStr (String.mk ((splitOnChar '.' fileName.data).getLastD []))

/-- The two handler modules registered in src/src/handlers/index.js lines 8-11,
in registration order web, typst. -/
inductive Handler where
  | web
  | typst
deriving DecidableEq, Repr

/-- Extensions claimed by the web handler (src/unnamed/part_001 line 352). -/
def webExtensions : List String := ["html", "htm", "css", "js", "javascript", "json"]

/-- canHandle of the web handler (src/unnamed/part_001 lines 350-354). -/
def webCanHandle (fileName : String) : Bool :=
  webExtensions.contains (extOf fileName)

/-- canHandle of the typst handler (src/unnamed/part_001 lines 12-15). -/
def typstCanHandle (fileName : String) : Bool :=
  extOf fileName == "typ"

/-- Handler resolution, src/src/handlers/index.js lines 18-27: walk the
registry `[webHandler, typstHandler]` in order, return the first handler whose
canHandle is true, and fall back to the web handler (so the result is never
null: the function is total). -/
def getHandlerForFile (fileName : String) : Handler :=
  if webCanHandle fileName then Handler.web
  else if typstCanHandle fileName then Handler.typst
  else Handler.web

/-- Restatement of the resolution contract in the spec's own words (spec
section 8: recognized web extension yields the Web Handler, the typeset
extension yields the Typeset Handler, anything else falls back to the Web
Handler), for comparison with `getHandlerForFile` translated from the source. -/
def resolveSpec (fileName : String) : Handler :=
  if extOf fileName ∈ webExtensions then Handler.web
  else if extOf fileName = "typ" then Handler.typst
  else Handler.web

/-- C1: for every file name whose lowercased last-dot extension is one of
html, htm, css, js, javascript, json the resolver returns the Web handler;
for extension typ it returns the Typst handler; for every other name it
returns the Web handler as fallback; resolution is total (it is a Lean
function into `Handler`, never an `Option`). -/
theorem getHandlerForFile_resolution_spec (fileName : String) :
    getHandlerForFile fileName = resolveSpec fileName := by
  unfold getHandlerForFile resolveSpec webCanHandle typstCanHandle
  by_cases hweb : extOf fileName ∈ webExtensions
  · simp [hweb]
  · by_cases htyp : extOf fileName = "typ" <;> simp [hweb, htyp]

/-! ## Service worker virtual file server (src/public/worker.js) -/

/-- MIME type from the file extension, src/public/worker.js lines 5-22. -/
def getMimeType (fileName : String) : String :=
  match extOf fileName with
  | "js" => "application/javascript"
  | "css" => "text/css"
  | "html" => "text/html"
  | "htm" => "text/html"
  | "json" => "application/json"
  | "txt" => "text/plain"
  | _ => "text/plain"

/-- The worker's `let files = new Map()` (worker.js line 2): a string-keyed map
from file name to stored content. -/
def FileTable : Type := String → Option String

/-- The updateFile message handler, worker.js lines 37-55:
`files.set(fileName, content || '')`. A missing, null or otherwise falsy
content field is modelled as `none` and is stored as the empty string. -/
def updateFile (files : FileTable) (fileName : String) (content : Option String) : FileTable :=
  fun k => if k = fileName then some (content.getD "") else files k

/-- The suffix of `s` after the first occurrence of `pat`, or `none` when
`pat` does not occur: together these model JavaScript
`s.includes(pat)` and `s.substring(s.indexOf(pat) + pat.length)`. -/
def afterFirst (pat : List Char) : List Char → Option (List Char)
  | [] => if pat = [] then some [] else none
  | c :: rest =>
    if pat.isPrefixOf (c :: rest) then some ((c :: rest).drop pat.length)
    else afterFirst pat rest

/-- A response produced by the worker's fetch listener: body, Content-Type
header and Cache-Control header. -/
structure WorkerResponse where
  body : String
  contentType : String
  cacheControl : String
deriving DecidableEq, Repr

/-- The fetch listener, worker.js lines 58-95. When the path contains
`/preview/`, the text after its first occurrence is the virtual file path.
When that path is `index.html` or empty the stored `index.html` entry is
served as `text/html`; when that entry is absent, control falls through to
the generic lookup. Otherwise a stored entry for the path is served with a
MIME type derived from its last `/`-segment (`filePath.split('/').pop()`)
and `Cache-Control: no-cache`; with no stored entry (or no `/preview/` in
the path) the worker does not respond. -/
def handleFetch (files : FileTable) (pathname : String) : Option WorkerResponse :=
  match afterFirst "/preview/".data pathname.data with
  | none => none
  | some suffix =>
    let filePath := String.mk suffix
    let serveStored : Option WorkerResponse :=
      match files filePath with
      | some c =>
        some ⟨c, getMimeType (String.mk ((splitOnChar '/' suffix).getLastD [])), "no-cache"⟩
      | none => none
    if filePath = "index.html" ∨ filePath = "" then
      match files "index.html" with
      | some c => some ⟨c, "text/html", "no-cache"⟩
      | none => serveStored
    else serveStored

/-- C8: after an updateFile message stores content under a file name, a fetch
under the reserved `/preview/` prefix naming that file answers with exactly
the stored body, the extension-derived Content-Type (.css gives text/css,
.js application/javascript, .html and .htm text/html, .json application/json,
anything else text/plain) and Cache-Control no-cache — for every prior table
state and every stored content. -/
theorem updateFile_then_fetch (files : FileTable) (content : String) :
    handleFetch (updateFile files "x.css" (some content)) "/preview/x.css"
      = some ⟨content, "text/css", "no-cache"⟩
  ∧ handleFetch (updateFile files "a.js" (some content)) "/preview/a.js"
      = some ⟨content, "application/javascript", "no-cache"⟩
  ∧ handleFetch (updateFile files "p.html" (some content)) "/preview/p.html"
      = some ⟨content, "text/html", "no-cache"⟩
  ∧ handleFetch (updateFile files "p.htm" (some content)) "/preview/p.htm"
      = some ⟨content, "text/html", "no-cache"⟩
  ∧ handleFetch (updateFile files "d.json" (some content)) "/preview/d.json"
      = some ⟨content, "application/json", "no-cache"⟩
  ∧ handleFetch (updateFile files "n.xyz" (some content)) "/preview/n.xyz"
      = some ⟨content, "text/plain", "no-cache"⟩ :=
  ⟨rfl, rfl, rfl, rfl, rfl, rfl⟩

/-- C10: an updateFile message whose content field is missing or falsy stores
the empty string under the file name (overwriting any previous entry, for
every prior table state), and a subsequent fetch of the served path succeeds
with an empty body and the extension-derived content type. -/
theorem updateFile_falsy_stores_empty (files : FileTable) (fileName : String) :
    updateFile files fileName none fileName = some ""
  ∧ handleFetch (updateFile files "a.js" none) "/preview/a.js"
      = some ⟨"", "application/javascript", "no-cache"⟩ := by
  refine ⟨?_, rfl⟩
  simp [updateFile]

/-! ## Zoom control (src/src/main.js, PreviewComponent) -/

/-- PreviewComponent.adjustZoom, src/src/main.js lines 1627-1632:
`zoomLevel *= factor` then clamp with
`Math.max(0.1, Math.min(5.0, zoomLevel))`. JavaScript numbers are modelled
by rationals. -/
def adjustZoom (zoomLevel factor : ℚ) : ℚ :=
  max (1/10) (min 5 (zoomLevel * factor))

/-- PreviewComponent.fitToWidth, src/src/main.js lines 1634-1644: the target
zoom is `containerWidth / (boundingWidth / zoomLevel)` (the bounding width of
the already-scaled artifact divided back by the current zoom), clamped the
same way. Division by zero yields 0 in ℚ, which the clamp sends to 1/10. -/
def fitToWidth (zoomLevel containerWidth boundingWidth : ℚ) : ℚ :=
  max (1/10) (min 5 (containerWidth / (boundingWidth / zoomLevel)))

/-- One user-driven zoom mutation: a zoom-button press or a fit-to-width
press with the container/artifact widths observed at that moment. -/
inductive ZoomStep where
  | adjust (factor : ℚ)
  | fit (containerWidth boundingWidth : ℚ)

/-- Apply one zoom mutation to the current zoom level. -/
def applyZoomStep (z : ℚ) : ZoomStep → ℚ
  | ZoomStep.adjust f => adjustZoom z f
  | ZoomStep.fit cw bw => fitToWidth z cw bw

theorem clamp_bounds (x : ℚ) : 1/10 ≤ max (1/10) (min 5 x) ∧ max (1/10) (min 5 x) ≤ 5 :=
  ⟨le_max_left _ _, max_le (by norm_num) (min_le_left _ _)⟩

theorem applyZoomStep_bounds (z : ℚ) (s : ZoomStep) :
    1/10 ≤ applyZoomStep z s ∧ applyZoomStep z s ≤ 5 := by
  cases s with
  | adjust f => exact clamp_bounds _
  | fit cw bw => exact clamp_bounds _

/-- C7: starting from any zoom level in [0.1, 5.0], any sequence of
adjustZoom and fitToWidth applications, with arbitrary factors and widths,
leaves the zoom level within [0.10, 5.00]. -/
theorem zoom_always_clamped (z : ℚ) (steps : List ZoomStep)
    (h1 : 1/10 ≤ z) (h2 : z ≤ 5) :
    1/10 ≤ steps.foldl applyZoomStep z ∧ steps.foldl applyZoomStep z ≤ 5 := by
  induction steps generalizing z with
  | nil => exact ⟨h1, h2⟩
  | cons s rest ih =>
    simpa using ih (applyZoomStep z s)
      (applyZoomStep_bounds z s).1 (applyZoomStep_bounds z s).2

/-- Witness for C7: zoom level 1 with one huge magnification, one fit-to-width
on a degenerate artifact and one tiny demagnification stays inside the range. -/
theorem zoom_always_clamped_witness :
    1/10 ≤ [ZoomStep.adjust 1000, ZoomStep.fit 99 0,
            ZoomStep.adjust (1/100000)].foldl applyZoomStep 1
  ∧ [ZoomStep.adjust 1000, ZoomStep.fit 99 0,
            ZoomStep.adjust (1/100000)].foldl applyZoomStep 1 ≤ 5 :=
  zoom_always_clamped 1 _ (by norm_num) (by norm_num)

/-! ## Render orchestration on edit events (src/src/main.js, EditorComponent) -/

/-- The per-file record fields that the edit-event policy reads: `type` is
the category stored on the file object (`getFileTypeFromExtension`, with
`typst` marking typeset files). -/
structure PFile where
  id : String
  name : String
  type : String
  content : String
deriving DecidableEq, Repr

/-- What one editor change event triggers in the preview pipeline
(src/src/main.js lines 1365-1393): a typst re-render with its preserveZoom
flag, a web preview push (`updatePreviewFiles`), or nothing. -/
inductive EditAction where
  | typstRender (preserveZoom : Bool)
  | webPush
  | noop
deriving DecidableEq, Repr

/-- The editor change handler's dispatch, src/src/main.js lines 1365-1393:
`fileData` is the edited file (looked up by the editor's own fileId),
`previewFile` is `projectFiles[activePreviewFileId]`. If the previewed file
exists and has type typst, a typst render with `preserveZoom = true` is
triggered for any edited file; otherwise a web push happens exactly when the
edited file is not typst and it is the previewed file; otherwise nothing. -/
def editorChangeAction (fileData : PFile) (previewFile : Option PFile)
    (editedId activePreviewFileId : String) : EditAction :=
  match previewFile with
  | some pf =>
    if pf.type = "typst" then EditAction.typstRender true
    else if fileData.type ≠ "typst" ∧ activePreviewFileId = editedId then EditAction.webPush
    else EditAction.noop
  | none =>
    if fileData.type ≠ "typst" ∧ activePreviewFileId = editedId then EditAction.webPush
    else EditAction.noop

/-- Number of Virtual File Server pushes (updatePreviewFiles cycles) an
action performs. -/
def pushCount : EditAction → Nat
  | EditAction.webPush => 1
  | _ => 0

/-- Number of typst render invocations an action triggers. -/
def renderCount : EditAction → Nat
  | EditAction.typstRender _ => 1
  | _ => 0

/-- C2: editing file A while the previewed file B has a static (non-typst)
handler pushes to the Virtual File Server exactly once when A is B and never
when A is not B (and never triggers a custom render). -/
theorem static_preview_rerender_policy (fileData pf : PFile)
    (editedId previewId : String)
    (hstatic : pf.type ≠ "typst")
    (hsame : editedId = previewId → fileData = pf) :
    pushCount (editorChangeAction fileData (some pf) editedId previewId)
      = (if editedId = previewId then 1 else 0)
  ∧ renderCount (editorChangeAction fileData (some pf) editedId previewId) = 0 := by
  by_cases h : editedId = previewId
  · have hfd : fileData = pf := hsame h
    simp [editorChangeAction, hstatic, h, hfd, pushCount, renderCount]
  · have h' : ¬ previewId = editedId := fun hc => h hc.symm
    simp [editorChangeAction, hstatic, h', h, pushCount, renderCount]

/-- Witness for C2: previewing the seed index.html while editing it pushes
once; editing the seed style.css while previewing index.html pushes zero
times. -/
theorem static_preview_rerender_policy_witness :
    (pushCount (editorChangeAction ⟨"htmlFile", "index.html", "html", ""⟩
        (some ⟨"htmlFile", "index.html", "html", ""⟩) "htmlFile" "htmlFile")
      = (if ("htmlFile" : String) = "htmlFile" then 1 else 0)
    ∧ renderCount (editorChangeAction ⟨"htmlFile", "index.html", "html", ""⟩
        (some ⟨"htmlFile", "index.html", "html", ""⟩) "htmlFile" "htmlFile") = 0)
  ∧ (pushCount (editorChangeAction ⟨"cssFile", "style.css", "css", ""⟩
        (some ⟨"htmlFile", "index.html", "html", ""⟩) "cssFile" "htmlFile")
      = (if ("cssFile" : String) = "htmlFile" then 1 else 0)
    ∧ renderCount (editorChangeAction ⟨"cssFile", "style.css", "css", ""⟩
        (some ⟨"htmlFile", "index.html", "html", ""⟩) "cssFile" "htmlFile") = 0) :=
  ⟨static_preview_rerender_policy _ _ _ _ (by decide) (fun _ => rfl),
   static_preview_rerender_policy _ _ _ _ (by decide) (by decide)⟩

/-! ## Typst initialization state machine (src/src/main.js lines 764-820,
src/unnamed/part_001 lines 22-85) -/

/-- The module-level initialization state: whether `typstCompiler` has been
assigned (the object is created before the awaited init and is never cleared
in the catch) and whether `isTypstInitializing` is set. -/
structure TypstInitState where
  compilerSet : Bool
  initializing : Bool
deriving DecidableEq, Repr

/-- How a load attempt ends. The body assigns `typstCompiler` partway
through (main.js line 794, part_001 line 53): an import-stage failure
throws before that assignment, an init-stage failure is a rejection of the
awaited `Promise.all` after it, and the catch clears only
`isTypstInitializing` (main.js lines 815-819, part_001 lines 80-84), never
`typstCompiler`. -/
inductive LoadOutcome where
  | importFailed
  | initFailed
  | succeeded
deriving DecidableEq, Repr

/-- The module state left behind by a settled load: the compiler object
exists unless the failure happened before its assignment, and the in-flight
flag is always cleared (by the success path or by the catch). -/
def loadAftermath : LoadOutcome -> TypstInitState
  | LoadOutcome.importFailed => ⟨false, false⟩
  | LoadOutcome.initFailed => ⟨true, false⟩
  | LoadOutcome.succeeded => ⟨true, false⟩

/-- The boolean a fresh load returns: true from the success path, false
from the catch (both failure stages). -/
def loadReturn : LoadOutcome -> Bool
  | LoadOutcome.succeeded => true
  | _ => false

/-- What the polling waiter resolves: each tick checks `typstCompiler`
first, so it resolves true as soon as the object is assigned — also when
the awaited init afterwards fails — and resolves false only when
`isTypstInitializing` clears with the object never assigned. -/
def waiterResolve : LoadOutcome -> Bool
  | LoadOutcome.importFailed => false
  | _ => true

/-- One call to `ensureTypstInitialized`, returning (result, state after
the call settles, number of module loads this call starts). `o` is the
outcome of the load governing this call: the already-in-flight load when
the call finds `isTypstInitializing` set, or the load this call itself
starts. The fast path `if (typstCompiler) return true` fires whenever the
compiler object exists, initialized or not. -/
def ensureTypstInitialized (s : TypstInitState) (o : LoadOutcome) :
    Bool × TypstInitState × Nat :=
  if s.compilerSet then (true, s, 0)
  else if s.initializing then (waiterResolve o, loadAftermath o, 0)
  else (loadReturn o, loadAftermath o, 1)

/-- Counterexample to C4: from the cold state, a load whose awaited init
stage fails returns false but leaves the compiler object assigned, so every
subsequent call returns true through the fast path and starts no new load —
initialization is never re-attempted after an init-stage failure — and a
waiter polling during such a load resolves true while the shared load's own
result is false. -/
theorem ensureTypstInitialized_init_failure_no_retry :
    ensureTypstInitialized ⟨false, false⟩ LoadOutcome.initFailed
      = (false, ⟨true, false⟩, 1)
  ∧ (∀ o : LoadOutcome,
      ensureTypstInitialized ⟨true, false⟩ o = (true, ⟨true, false⟩, 0))
  ∧ (ensureTypstInitialized ⟨false, true⟩ LoadOutcome.initFailed).1 = true
  ∧ (ensureTypstInitialized ⟨false, false⟩ LoadOutcome.initFailed).1 = false := by
  refine ⟨rfl, ?_, rfl, rfl⟩
  intro o
  rfl

/-- C4 amended: the fast path is idempotent once the compiler object exists
(in particular after every successful initialization); a call that finds a
load in flight never starts a second load, resolving false exactly when
that load fails before the compiler object is created and true otherwise
(even when the awaited init then fails); a fresh call starts exactly one
load, returns true exactly on full success and always clears the in-flight
flag, and a subsequent call re-attempts initialization exactly when the
failure occurred before the compiler object was created (module import
stage) — after an init-stage failure the compiler object remains set and
later calls return true without retrying. -/
theorem ensureTypstInitialized_staged_contract (s : TypstInitState) (o : LoadOutcome) :
    (s.compilerSet = true → ensureTypstInitialized s o = (true, s, 0))
  ∧ (s.compilerSet = false → s.initializing = true →
      (ensureTypstInitialized s o).2.2 = 0
      ∧ ((ensureTypstInitialized s o).1 = true ↔ o ≠ LoadOutcome.importFailed))
  ∧ (s.compilerSet = false → s.initializing = false →
      (ensureTypstInitialized s o).2.2 = 1
      ∧ ((ensureTypstInitialized s o).1 = true ↔ o = LoadOutcome.succeeded)
      ∧ (ensureTypstInitialized s o).2.1.initializing = false
      ∧ (o = LoadOutcome.importFailed →
          ∀ o2 : LoadOutcome,
            (ensureTypstInitialized (ensureTypstInitialized s o).2.1 o2).2.2 = 1)
      ∧ (o = LoadOutcome.initFailed →
          ∀ o2 : LoadOutcome,
            ensureTypstInitialized (ensureTypstInitialized s o).2.1 o2
              = (true, ⟨true, false⟩, 0))) := by
  refine ⟨?_, ?_, ?_⟩
  · intro h
    simp [ensureTypstInitialized, h]
  · intro h1 h2
    constructor
    · simp [ensureTypstInitialized, h1, h2]
    · cases o <;> simp [ensureTypstInitialized, waiterResolve, h1, h2]
  · intro h1 h2
    refine ⟨?_, ?_, ?_, ?_, ?_⟩
    · simp [ensureTypstInitialized, h1, h2]
    · cases o <;> simp [ensureTypstInitialized, loadReturn, h1, h2]
    · cases o <;> simp [ensureTypstInitialized, loadAftermath, h1, h2]
    · intro ho o2
      subst ho
      simp [ensureTypstInitialized, loadAftermath, h1, h2]
    · intro ho o2
      subst ho
      simp [ensureTypstInitialized, loadAftermath, loadReturn, h1, h2]

/-- Witness for C4 (amended): the contract instantiated at the ready state
with a successful load, the in-flight state during an init-stage failure,
and the cold state with an import-stage failure. -/
theorem ensureTypstInitialized_staged_contract_witness :
    ensureTypstInitialized ⟨true, false⟩ LoadOutcome.succeeded
      = (true, ⟨true, false⟩, 0)
  ∧ ((ensureTypstInitialized ⟨false, true⟩ LoadOutcome.initFailed).2.2 = 0
      ∧ ((ensureTypstInitialized ⟨false, true⟩ LoadOutcome.initFailed).1 = true
          ↔ LoadOutcome.initFailed ≠ LoadOutcome.importFailed))
  ∧ ((ensureTypstInitialized ⟨false, false⟩ LoadOutcome.importFailed).2.2 = 1
      ∧ ((ensureTypstInitialized ⟨false, false⟩ LoadOutcome.importFailed).1 = true
          ↔ LoadOutcome.importFailed = LoadOutcome.succeeded)
      ∧ (ensureTypstInitialized ⟨false, false⟩
            LoadOutcome.importFailed).2.1.initializing = false
      ∧ (LoadOutcome.importFailed = LoadOutcome.importFailed →
          ∀ o2 : LoadOutcome,
            (ensureTypstInitialized
              (ensureTypstInitialized ⟨false, false⟩ LoadOutcome.importFailed).2.1
              o2).2.2 = 1)
      ∧ (LoadOutcome.importFailed = LoadOutcome.initFailed →
          ∀ o2 : LoadOutcome,
            ensureTypstInitialized
              (ensureTypstInitialized ⟨false, false⟩ LoadOutcome.importFailed).2.1 o2
              = (true, ⟨true, false⟩, 0))) :=
  ⟨(ensureTypstInitialized_staged_contract ⟨true, false⟩ LoadOutcome.succeeded).1 rfl,
   (ensureTypstInitialized_staged_contract ⟨false, true⟩ LoadOutcome.initFailed).2.1 rfl rfl,
   (ensureTypstInitialized_staged_contract ⟨false, false⟩ LoadOutcome.importFailed).2.2 rfl rfl⟩

/-! ## Typst rendering and zoom preservation (src/src/main.js lines 828-899) -/

/-- The preview component state that renderTypst reads and writes: whether
the output container currently holds a rendered svg, the zoom level and the
container text alignment. -/
structure RenderView where
  hasSvg : Bool
  zoomLevel : ℚ
  textAlign : String
deriving DecidableEq, Repr

/-- Outcome of `typstCompiler.compile` inside renderTypst: a usable artifact
(`artifact && artifact.result`), a compile without a result, or a thrown
error caught by the surrounding try/catch. -/
inductive CompileOutcome where
  | ok
  | noResult
  | err
deriving DecidableEq, Repr

/-- The view-state effect of renderTypst, src/src/main.js lines 828-899,
with `pc` recording whether `previewComponentInstance` exists. On a thrown
error nothing in the view changes; with no artifact result the output is
replaced by a failure message (no svg), zoom untouched. With a result the
existing zoom and alignment are captured when `preserveZoom` is requested,
an svg already exists and the instance exists; after the new svg is
inserted, a truthy captured zoom is re-applied (alignment falling back by
`||` to centered at unity zoom, else left), otherwise the hardcoded 2.28
initial zoom is applied with left alignment; with no instance the svg is
inserted and no zoom logic runs. -/
def renderTypstView (pc : Bool) (view : RenderView) (preserveZoom : Bool)
    (outcome : CompileOutcome) : RenderView :=
  match outcome with
  | CompileOutcome.err => view
  | CompileOutcome.noResult => { view with hasSvg := false }
  | CompileOutcome.ok =>
    let captured : Option (ℚ × String) :=
      if preserveZoom ∧ view.hasSvg ∧ pc then some (view.zoomLevel, view.textAlign)
      else none
    if pc then
      match captured with
      | some (z, a) =>
        if z ≠ 0 then
          ⟨true, z, if a ≠ "" then a else if z = 1 then "center" else "left"⟩
        else ⟨true, 228/100, "left"⟩
      | none => ⟨true, 228/100, "left"⟩
    else ⟨true, view.zoomLevel, view.textAlign⟩

/-- The typst branch of the editor change handler (src/src/main.js lines
1372-1386): it awaits `ensureTypstInitialized`; when that succeeds and the
preview component exists it calls renderTypst exactly once with
`preserveZoom = true`; otherwise it only writes a diagnostics message.
Returns (number of renderTypst invocations, the preserveZoom flag passed,
the view after the branch). -/
def typstEditBranch (initOk pc : Bool) (outcome : CompileOutcome)
    (view : RenderView) : Nat × Bool × RenderView :=
  if initOk ∧ pc then (1, true, renderTypstView pc view true outcome)
  else (0, true, view)

/-- C3: an edit to any file while the previewed file has type typst triggers
the custom-render action with preserveZoom = true and no web push; with the
compiler initialized and the preview component present, exactly one
renderTypst invocation runs, with preserveZoom = true; and whenever a
rendered artifact and a nonzero zoom level existed before the invocation,
the zoom level after it equals the zoom level before it, for every compile
outcome. -/
theorem typst_preview_rerender_policy (fileData pf : PFile)
    (editedId previewId : String) (view : RenderView)
    (htypst : pf.type = "typst")
    (hsvg : view.hasSvg = true) (hz : view.zoomLevel ≠ 0) :
    editorChangeAction fileData (some pf) editedId previewId
      = EditAction.typstRender true
  ∧ pushCount (editorChangeAction fileData (some pf) editedId previewId) = 0
  ∧ (∀ outcome : CompileOutcome,
      (typstEditBranch true true outcome view).1 = 1
      ∧ (typstEditBranch true true outcome view).2.1 = true
      ∧ (typstEditBranch true true outcome view).2.2.zoomLevel = view.zoomLevel) := by
  refine ⟨by simp [editorChangeAction, htypst], by simp [editorChangeAction, htypst, pushCount], ?_⟩
  intro outcome
  refine ⟨rfl, rfl, ?_⟩
  cases outcome with
  | err => rfl
  | noResult => rfl
  | ok => simp [typstEditBranch, renderTypstView, hsvg, hz]

/-- Witness for C3: editing the seed style.css while previewing the seed
main.typ file, with an existing artifact at zoom 2.28. -/
theorem typst_preview_rerender_policy_witness :
    editorChangeAction ⟨"cssFile", "style.css", "css", ""⟩
        (some ⟨"typstFile", "main.typ", "typst", ""⟩) "cssFile" "typstFile"
      = EditAction.typstRender true
  ∧ pushCount (editorChangeAction ⟨"cssFile", "style.css", "css", ""⟩
        (some ⟨"typstFile", "main.typ", "typst", ""⟩) "cssFile" "typstFile") = 0
  ∧ (∀ outcome : CompileOutcome,
      (typstEditBranch true true outcome ⟨true, 228/100, "left"⟩).1 = 1
      ∧ (typstEditBranch true true outcome ⟨true, 228/100, "left"⟩).2.1 = true
      ∧ (typstEditBranch true true outcome ⟨true, 228/100, "left"⟩).2.2.zoomLevel
          = (⟨true, 228/100, "left"⟩ : RenderView).zoomLevel) :=
  typst_preview_rerender_policy _ _ _ _ _ rfl rfl (by norm_num)

/-! ## Project file collection operations (src/src/main.js, ProjectFilesComponent) -/

/-- JavaScript `String.prototype.trim`: strip whitespace from both ends. -/
def trimStr (s : String) : String :=
  String.mk (((s.data.dropWhile Char.isWhitespace).reverse.dropWhile Char.isWhitespace).reverse)

/-- getFileTypeFromExtension, src/src/main.js lines 1230-1245. -/
def getFileTypeFromExtension (fileName : String) : String :=
  match extOf fileName with
  | "html" => "html"
  | "htm" => "html"
  | "css" => "css"
  | "js" => "javascript"
  | "typ" => "typst"
  | _ => "text"

/-- The names of the known files, in insertion order. -/
def fileNames (files : List PFile) : List String := files.map (fun f => f.name)

/-- The commit step of ProjectFilesComponent.createNewFile, src/src/main.js
lines 1772-1806: an empty trimmed name cancels; a name equal to some known
file's name is refused (the input is marked red and nothing is added);
otherwise a fresh file is appended with the seeded comment content. -/
def createNewFileCommit (files : List PFile) (rawName newId : String) : List PFile :=
  let fileName := trimStr rawName
  if fileName = "" then files
  else if files.any (fun f => f.name = fileName) then files
  else files ++ [⟨newId, fileName, getFileTypeFromExtension fileName,
    "// New file: " ++ fileName ++ "\n"⟩]

/-- ProjectFilesComponent.commitRename, src/src/main.js lines 1917-1968: when
the file exists and the trimmed new name is nonempty and differs from the
current name, the name and the extension-derived type are updated — with no
check against the names of the other known files. -/
def commitRename (files : List PFile) (fileId newName : String) : List PFile :=
  match files.find? (fun f => f.id = fileId) with
  | none => files
  | some currentFile =>
    let trimmedNewName := trimStr newName
    if trimmedNewName ≠ "" ∧ trimmedNewName ≠ currentFile.name then
      files.map (fun f =>
        if f.id = fileId then
          { f with name := trimmedNewName, type := getFileTypeFromExtension trimmedNewName }
        else f)
    else files

/-- One dropped file in ProjectFilesComponent.handleDrop, src/src/main.js
lines 1986-2026: the file is read and appended under its own name with no
check against the names of the known files. -/
def handleDropAddFile (files : List PFile) (fileName fileContent newId : String) : List PFile :=
  files ++ [⟨newId, fileName, getFileTypeFromExtension fileName, fileContent⟩]

/-- Counterexample to C9: renaming the second of two files to the first
file's name succeeds and leaves two files named a.html, and dropping a file
named like an existing one likewise produces a duplicate — rename and
drag-drop import do not reject a name already held by another known file. -/
theorem rename_and_drop_allow_duplicate_names :
    fileNames (commitRename
        [⟨"f1", "a.html", "html", ""⟩, ⟨"f2", "b.html", "html", ""⟩] "f2" "a.html")
      = ["a.html", "a.html"]
  ∧ ¬ (fileNames (commitRename
        [⟨"f1", "a.html", "html", ""⟩, ⟨"f2", "b.html", "html", ""⟩] "f2" "a.html")).Pairwise
        (fun a b => a ≠ b)
  ∧ fileNames (handleDropAddFile [⟨"f1", "a.html", "html", ""⟩] "a.html" "x" "f3")
      = ["a.html", "a.html"] := by
  refine ⟨rfl, ?_, rfl⟩
  intro h
  rw [show fileNames (commitRename
        [⟨"f1", "a.html", "html", ""⟩, ⟨"f2", "b.html", "html", ""⟩] "f2" "a.html")
      = ["a.html", "a.html"] from rfl] at h
  exact (List.pairwise_cons.mp h).1 "a.html" (by simp) rfl

/-- C9 amended: only new-file creation enforces name uniqueness — the
create-file commit refuses a trimmed name already held by a known file and
preserves pairwise-distinct names, while rename and drag-drop import check
nothing. -/
theorem createNewFile_rejects_duplicates (files : List PFile) (rawName newId : String) :
    (files.any (fun f => f.name = trimStr rawName) = true →
      createNewFileCommit files rawName newId = files)
  ∧ ((fileNames files).Pairwise (fun a b => a ≠ b) →
      (fileNames (createNewFileCommit files rawName newId)).Pairwise (fun a b => a ≠ b)) := by
  constructor
  · intro hdup
    unfold createNewFileCommit
    by_cases hempty : trimStr rawName = "" <;> simp [hempty, hdup]
  · intro hpw
    unfold createNewFileCommit
    by_cases hempty : trimStr rawName = ""
    · simp [hempty]
      exact hpw
    · by_cases hdup : files.any (fun f => f.name = trimStr rawName) = true
      · simpa [hempty, hdup] using hpw
      · have hnotmem : ∀ f ∈ files, f.name ≠ trimStr rawName := by
          intro f hf
          by_contra hc
          exact hdup (List.any_eq_true.mpr ⟨f, hf, by simp [hc]⟩)
        simp only [hempty, hdup, if_false, if_neg hempty]
        rw [if_neg (by simp [hdup])]
        unfold fileNames
        rw [List.map_append, List.pairwise_append]
        refine ⟨hpw, by simp, ?_⟩
        intro a ha b hb
        simp only [List.map_cons, List.map_nil, List.mem_singleton] at hb
        rcases List.mem_map.mp ha with ⟨f, hf, rfl⟩
        subst hb
        exact hnotmem f hf

/-- Witness for C9 (amended): creating a second a.html over the seed file is
refused and the distinct seed names stay distinct. -/
theorem createNewFile_rejects_duplicates_witness :
    ([⟨"f1", "a.html", "html", ""⟩, ⟨"f2", "b.html", "html", ""⟩] : List PFile).any
        (fun f => f.name = trimStr "a.html") = true
  ∧ createNewFileCommit [⟨"f1", "a.html", "html", ""⟩, ⟨"f2", "b.html", "html", ""⟩]
        "a.html" "f9"
      = [⟨"f1", "a.html", "html", ""⟩, ⟨"f2", "b.html", "html", ""⟩] :=
  ⟨by decide,
   (createNewFile_rejects_duplicates
      [⟨"f1", "a.html", "html", ""⟩, ⟨"f2", "b.html", "html", ""⟩] "a.html" "f9").1
      (by decide)⟩

/-! ## String replacement and the web-handler preview templates -/

/-- JavaScript `s.replace(/pat/g, repl)` for a literal pattern: replace every
non-overlapping occurrence, scanning left to right. The fuel argument (the
input length at the top call) makes the recursion structural; every step
consumes at least one character, so the fuel never runs out. -/
def replaceAllAux (pat repl : List Char) : Nat → List Char → List Char
  | 0, s => s
  | _ + 1, [] => []
  | fuel + 1, c :: rest =>
    if pat ≠ [] ∧ pat.isPrefixOf (c :: rest) then
      repl ++ replaceAllAux pat repl fuel ((c :: rest).drop pat.length)
    else c :: replaceAllAux pat repl fuel rest

/-- Global string replacement, entry point. -/
def replaceAll (s pat repl : String) : String :=
  String.mk (replaceAllAux pat.data repl.data s.data.length s.data)

theorem replaceAllAux_self (a : Char) :
    ∀ (n : Nat) (s : List Char), replaceAllAux [a] [a] n s = s
  | 0, _ => rfl
  | _ + 1, [] => rfl
  | n + 1, c :: rest => by
    by_cases h : a = c
    · subst h
      simp [replaceAllAux, List.isPrefixOf, replaceAllAux_self a n rest]
    · have : ¬ [a].isPrefixOf (c :: rest) = true := by
        simp [List.isPrefixOf, h]
      simp [replaceAllAux, this, replaceAllAux_self a n rest]

/-- Replacing a single character by itself is the identity. -/
theorem replaceAll_self_char (s : String) (a : Char) :
    replaceAll s (String.mk [a]) (String.mk [a]) = s := by
  unfold replaceAll
  rw [replaceAllAux_self]

/-- The angle-bracket replacement as literally written in the unnamed
web-handler module, src/unnamed/part_001 line 427:
`fileContent.replace(/</g, '<').replace(/>/g, '>')` — the replacement text
for each angle bracket is that same angle bracket. -/
def webHandlerPreEscape (c : String) : String :=
  replaceAll (replaceAll c "<" "<") ">" ">"

/-- The angle-bracket escaping in src/src/preview-handlers.js line 79 (and
the inline copy in src/src/main.js line 967):
`fileContent.replace(/</g, '&lt;').replace(/>/g, '&gt;')`. -/
def escapeAngles (c : String) : String :=
  replaceAll (replaceAll c "<" "&lt;") ">" "&gt;"

/-- The template-literal escaping applied before embedding the source into
the eval wrapper (src/unnamed/part_001 line 446, preview-handlers.js line
100): each backtick becomes backslash-backtick, each dollar becomes
backslash-dollar. -/
def evalEscape (c : String) : String :=
  replaceAll (replaceAll c "\x60" "\\\x60") "$" "\\$"

/-- Literal segment of the web-handler js preview template
(src/unnamed/part_001 lines 407-459) before the title file name. -/
def jsWebSeg0 : String :=
  "\n<!DOCTYPE html>\n<html lang=\"en\">\n<head>\n    <meta charset=\"UTF-8\">\n    <title>JavaScript Preview - "

/-- Segment between the title file name and the filename div. -/
def jsWebSeg1 : String :=
  "</title>\n    <style>\n        body \x7b font-family: \x27Courier New\x27, monospace; margin: 20px; background: #f5f5f5; \x7d\n        .code-container \x7b background: white; padding: 20px; border-radius: 5px; box-shadow: 0 2px 4px rgba(0,0,0,0.1); \x7d\n        .code \x7b background: #f8f8f8; padding: 15px; border-radius: 3px; border-left: 4px solid #007acc; overflow-x: auto; \x7d\n        .filename \x7b color: #666; margin-bottom: 10px; font-weight: bold; \x7d\n        .console \x7b background: #1e1e1e; color: #d4d4d4; padding: 15px; border-radius: 3px; margin-top: 15px; \x7d\n        .console-title \x7b color: #569cd6; margin-bottom: 10px; \x7d\n        .run-button \x7b background: #007acc; color: white; border: none; padding: 8px 16px; border-radius: 3px; cursor: pointer; margin-top: 10px; \x7d\n        .run-button:hover \x7b background: #005a9e; \x7d\n    </style>\n</head>\n<body>\n    <div class=\"code-container\">\n        <div class=\"filename\">"

/-- Segment between the filename div and the pre-block source slot. -/
def jsWebSeg2 : String :=
  "</div>\n        <pre class=\"code\">"

/-- Segment between the pre-block slot and the eval wrapper slot. -/
def jsWebSeg3 : String :=
  "</pre>\n        <button class=\"run-button\" onclick=\"runCode()\">Run Code</button>\n        <div class=\"console\">\n            <div class=\"console-title\">Console Output:</div>\n            <div id=\"console-output\">Click \"Run Code\" to execute the JavaScript</div>\n        </div>\n    </div>\n    <script>\n        function runCode() \x7b\n            const output = document.getElementById(\x27console-output\x27);\n            output.innerHTML = \x27\x27;\n            \n            const originalLog = console.log;\n            console.log = function(...args) \x7b\n                output.innerHTML += args.join(\x27 \x27) + \x27\\n\x27;\n                originalLog.apply(console, args);\n            \x7d;\n            \n            try \x7b\n                eval(\x60"

/-- Trailing segment after the eval wrapper slot. -/
def jsWebSeg4 : String :=
  "\x60);\n                if (output.innerHTML === \x27\x27) \x7b\n                    output.innerHTML = \x27Code executed successfully (no console output)\x27;\n                \x7d\n            \x7d catch (error) \x7b\n                output.innerHTML = \x27Error: \x27 + error.message;\n                output.style.color = \x27#ff6b6b\x27;\n            \x7d\n            \n            console.log = originalLog;\n        \x7d\n    </script>\n</body>\n</html>"

/-- The js/javascript case of the unnamed web-handler's generatePreview,
src/unnamed/part_001 lines 405-463: the preview document is the template
with the file name in the title and filename slots, the angle-bracket
replacement applied to the source in the pre slot and the backtick/dollar
escaping applied to the source in the eval wrapper slot. -/
def webHandlerJsPreviewContent (fileName fileContent : String) : String :=
  jsWebSeg0 ++ fileName ++ jsWebSeg1 ++ fileName ++ jsWebSeg2
    ++ webHandlerPreEscape fileContent ++ jsWebSeg3
    ++ evalEscape fileContent ++ jsWebSeg4

/-- C5 fails on the web-handler module as shipped: its angle-bracket
replacement maps each bracket to itself, so for every source (and in
particular at the failing input below) the js preview embeds `<` and `>`
unescaped inside the `<pre>` block, while src/src/preview-handlers.js
escapes the same input to HTML entities as the spec requires. The last
conjunct evaluates the handler at the failing input: the pre slot receives
the raw script text, so user content can close the pre element (the
backtick/dollar escaping of the eval slot does work, and leaves this input
unchanged because it has no backtick or dollar). -/
theorem webHandler_js_pre_escape_noop :
    (∀ c : String, webHandlerPreEscape c = c)
  ∧ escapeAngles "<script>alert(1)</script>"
      = "&lt;script&gt;alert(1)&lt;/script&gt;"
  ∧ evalEscape "x\x60$y" = "x\\\x60\\$y"
  ∧ webHandlerJsPreviewContent "app.js" "<script>alert(1)</script>"
      = jsWebSeg0 ++ "app.js" ++ jsWebSeg1 ++ "app.js" ++ jsWebSeg2
        ++ "<script>alert(1)</script>" ++ jsWebSeg3
        ++ "<script>alert(1)</script>" ++ jsWebSeg4 := by
  refine ⟨?_, rfl, rfl, ?_⟩
  · intro c
    show replaceAll (replaceAll c (String.mk ['<']) (String.mk ['<']))
        (String.mk ['>']) (String.mk ['>']) = c
    rw [replaceAll_self_char, replaceAll_self_char]
  · unfold webHandlerJsPreviewContent
    rw [show webHandlerPreEscape "<script>alert(1)</script>"
          = "<script>alert(1)</script>" from rfl,
        show evalEscape "<script>alert(1)</script>"
          = "<script>alert(1)</script>" from rfl]

/-! ## JSON parse and stringify (models of the ECMAScript builtins used by
the json preview handlers) -/

/-- A parsed JSON value. Numbers keep their source lexeme: the handlers never
compute with them, and `JSON.stringify` of an integer-valued literal prints
the same digits. -/
inductive JValue where
  | null
  | bool (b : Bool)
  | num (lexeme : String)
  | str (s : String)
  | arr (elems : List JValue)
  | obj (fields : List (String × JValue))
deriving Repr

/-- JSON insignificant whitespace: space, tab, line feed, carriage return. -/
def skipWs : List Char → List Char
  | [] => []
  | c :: rest =>
    if c = ' ' ∨ c = '\t' ∨ c = '\n' ∨ c = '\r' then skipWs rest else c :: rest

/-- Hexadecimal digit value, for string \u escapes. -/
def hexDigitVal (c : Char) : Option Nat :=
  if '0' ≤ c ∧ c ≤ '9' then some (c.toNat - 48)
  else if 'a' ≤ c ∧ c ≤ 'f' then some (c.toNat - 87)
  else if 'A' ≤ c ∧ c ≤ 'F' then some (c.toNat - 55)
  else none

/-- Body of a JSON string literal (after the opening quote): returns the
decoded characters and the input after the closing quote. Handles the JSON
escapes; raw control characters are rejected as in `JSON.parse`. Surrogate
\u escapes are rejected (the ECMAScript builtin would accept paired ones;
the difference only moves such inputs to the parse-failure branch). -/
def parseStrAux : Nat → List Char → Option (List Char × List Char)
  | 0, _ => none
  | _ + 1, [] => none
  | fuel + 1, c :: rest =>
    if c = '"' then some ([], rest)
    else if c = '\\' then
      match rest with
      | [] => none
      | e :: rest2 =>
        let decoded : Option (Char × List Char) :=
          if e = '"' then some ('"', rest2)
          else if e = '\\' then some ('\\', rest2)
          else if e = '/' then some ('/', rest2)
          else if e = 'b' then some (Char.ofNat 8, rest2)
          else if e = 'f' then some (Char.ofNat 12, rest2)
          else if e = 'n' then some ('\n', rest2)
          else if e = 'r' then some (Char.ofNat 13, rest2)
          else if e = 't' then some ('\t', rest2)
          else if e = 'u' then
            match rest2 with
            | h1 :: h2 :: h3 :: h4 :: rest3 =>
              match hexDigitVal h1, hexDigitVal h2, hexDigitVal h3, hexDigitVal h4 with
              | some a, some b, some c2, some d =>
                let n := ((a * 16 + b) * 16 + c2) * 16 + d
                if 0xD800 ≤ n ∧ n ≤ 0xDFFF then none
                else some (Char.ofNat n, rest3)
              | _, _, _, _ => none
            | _ => none
          else none
        match decoded with
        | some (ch, rem) =>
          match parseStrAux fuel rem with
          | some (cs, rem2) => some (ch :: cs, rem2)
          | none => none
        | none => none
    else if c.toNat < 32 then none
    else
      match parseStrAux fuel rest with
      | some (cs, rem) => some (c :: cs, rem)
      | none => none

/-- Longest leading run of decimal digits. -/
def takeDigits : List Char → List Char × List Char
  | [] => ([], [])
  | c :: rest =>
    if '0' ≤ c ∧ c ≤ '9' then
      let p := takeDigits rest
      (c :: p.1, p.2)
    else ([], c :: rest)

/-- Optional fraction and exponent of a JSON number, appended to the lexeme
accumulated so far. -/
def parseFracExp (acc : List Char) (s : List Char) : Option (List Char × List Char) :=
  let step1 : Option (List Char × List Char) :=
    match s with
    | '.' :: r =>
      match takeDigits r with
      | ([], _) => none
      | (ds, rem) => some (acc ++ '.' :: ds, rem)
    | _ => some (acc, s)
  match step1 with
  | none => none
  | some (acc2, s2) =>
    match s2 with
    | e :: r =>
      if e = 'e' ∨ e = 'E' then
        let signed : List Char × List Char :=
          match r with
          | '+' :: rr => (['+'], rr)
          | '-' :: rr => (['-'], rr)
          | _ => ([], r)
        match takeDigits signed.2 with
        | ([], _) => none
        | (ds, rem) => some (acc2 ++ e :: (signed.1 ++ ds), rem)
      else some (acc2, s2)
    | [] => some (acc2, s2)

/-- A JSON number lexeme: optional minus, integer part without leading
zeros, optional fraction, optional exponent. -/
def parseNumberLex (s : List Char) : Option (List Char × List Char) :=
  let signed : List Char × List Char :=
    match s with
    | '-' :: r => (['-'], r)
    | _ => ([], s)
  match signed.2 with
  | '0' :: r => parseFracExp (signed.1 ++ ['0']) r
  | c :: r =>
    if '1' ≤ c ∧ c ≤ '9' then
      let p := takeDigits r
      parseFracExp (signed.1 ++ c :: p.1) p.2
    else none
  | [] => none

/-- Insert a parsed object member ahead of the members parsed after it,
with ECMAScript duplicate-key semantics: the earlier occurrence keeps its
position but a later assignment's value wins. -/
def mergeField (k : String) (v : JValue) (kvs : List (String × JValue)) :
    List (String × JValue) :=
  match kvs.lookup k with
  | some v2 => (k, v2) :: kvs.filter (fun kv => kv.1 ≠ k)
  | none => (k, v) :: kvs

/-- Parser modes: a single value, the elements after `[` (at least one),
or the members after the opening brace (at least one). -/
inductive PMode where
  | value
  | elems
  | members

/-- Parser results, per mode. -/
inductive PRes where
  | val (v : JValue)
  | items (vs : List JValue)
  | fields (kvs : List (String × JValue))

/-- The opening and closing brace characters (codes 123 and 125). -/
def lbraceChar : Char := Char.ofNat 123

/-- Closing brace character. -/
def rbraceChar : Char := Char.ofNat 125

/-- The JSON grammar, one structurally recursive function over fuel. -/
def parseRun : Nat → PMode → List Char → Option (PRes × List Char)
  | 0, _, _ => none
  | fuel + 1, PMode.value, s =>
    match skipWs s with
    | [] => none
    | c :: r =>
      if c = '"' then
        match parseStrAux (r.length + 1) r with
        | some (cs, rem) => some (PRes.val (JValue.str (String.mk cs)), rem)
        | none => none
      else if c = '[' then
        match skipWs r with
        | c2 :: r2 =>
          if c2 = ']' then some (PRes.val (JValue.arr []), r2)
          else
            match parseRun fuel PMode.elems r with
            | some (PRes.items vs, rem) => some (PRes.val (JValue.arr vs), rem)
            | _ => none
        | [] => none
      else if c = lbraceChar then
        match skipWs r with
        | c2 :: r2 =>
          if c2 = rbraceChar then some (PRes.val (JValue.obj []), r2)
          else
            match parseRun fuel PMode.members r with
            | some (PRes.fields kvs, rem) => some (PRes.val (JValue.obj kvs), rem)
            | _ => none
        | [] => none
      else if "null".data.isPrefixOf (c :: r) then
        some (PRes.val JValue.null, (c :: r).drop 4)
      else if "true".data.isPrefixOf (c :: r) then
        some (PRes.val (JValue.bool true), (c :: r).drop 4)
      else if "false".data.isPrefixOf (c :: r) then
        some (PRes.val (JValue.bool false), (c :: r).drop 5)
      else
        match parseNumberLex (c :: r) with
        | some (lx, rem) => some (PRes.val (JValue.num (String.mk lx)), rem)
        | none => none
  | fuel + 1, PMode.elems, s =>
    match parseRun fuel PMode.value s with
    | some (PRes.val v, rem) =>
      match skipWs rem with
      | c :: r2 =>
        if c = ',' then
          match parseRun fuel PMode.elems r2 with
          | some (PRes.items vs, rem2) => some (PRes.items (v :: vs), rem2)
          | _ => none
        else if c = ']' then some (PRes.items [v], r2)
        else none
      | [] => none
    | _ => none
  | fuel + 1, PMode.members, s =>
    match skipWs s with
    | c :: r =>
      if c = '"' then
        match parseStrAux (r.length + 1) r with
        | some (kcs, rem) =>
          match skipWs rem with
          | c2 :: r2 =>
            if c2 = ':' then
              match parseRun fuel PMode.value r2 with
              | some (PRes.val v, rem2) =>
                match skipWs rem2 with
                | c3 :: r3 =>
                  if c3 = ',' then
                    match parseRun fuel PMode.members r3 with
                    | some (PRes.fields kvs, rem3) =>
                      some (PRes.fields (mergeField (String.mk kcs) v kvs), rem3)
                    | _ => none
                  else if c3 = rbraceChar then
                    some (PRes.fields [(String.mk kcs, v)], r3)
                  else none
                | [] => none
              | _ => none
            else none
          | [] => none
        | none => none
      else none
    | [] => none

/-- A model of `JSON.parse`: parse a complete value with only trailing
whitespace allowed, `none` standing for the thrown SyntaxError. -/
def jsonParse (s : String) : Option JValue :=
  match parseRun (4 * s.data.length + 16) PMode.value s.data with
  | some (PRes.val v, rem) => if skipWs rem = [] then some v else none
  | _ => none

/-- Lowercase hexadecimal digit. -/
def hexChar (n : Nat) : Char :=
  if n < 10 then Char.ofNat (48 + n) else Char.ofNat (87 + n)

/-- String quoting as in `JSON.stringify`: backslash escapes for quote,
backslash and the named control characters, \u00xx for the remaining
control characters, everything else verbatim. -/
def quoteJsonStr (s : String) : String :=
  let esc : Char → List Char := fun c =>
    if c = '"' then ['\\', '"']
    else if c = '\\' then ['\\', '\\']
    else if c.toNat = 8 then ['\\', 'b']
    else if c.toNat = 12 then ['\\', 'f']
    else if c = '\n' then ['\\', 'n']
    else if c.toNat = 13 then ['\\', 'r']
    else if c = '\t' then ['\\', 't']
    else if c.toNat < 32 then
      ['\\', 'u', '0', '0', hexChar (c.toNat / 16), hexChar (c.toNat % 16)]
    else [c]
  String.mk ('"' :: (s.data.map esc).flatten ++ ['"'])

/-- Join rendered items with a separator. -/
def joinSep (sep : String) : List String → String
  | [] => ""
  | [x] => x
  | x :: y :: rest => x ++ sep ++ joinSep sep (y :: rest)

/-- The indentation for nesting level produced by a 2-space `JSON.stringify`
gap at the given column. -/
def indentStr (n : Nat) : String := String.mk (List.replicate n ' ')

/-- A model of `JSON.stringify(v, null, 2)` at indentation column `ind`;
the fuel (at least the nesting depth) makes the recursion structural. -/
def stringifyAux : Nat → Nat → JValue → String
  | 0, _, _ => ""
  | fuel + 1, ind, v =>
    match v with
    | JValue.null => "null"
    | JValue.bool true => "true"
    | JValue.bool false => "false"
    | JValue.num lx => lx
    | JValue.str s => quoteJsonStr s
    | JValue.arr [] => "[]"
    | JValue.arr xs =>
      "[\n"
        ++ joinSep ",\n"
            (xs.map (fun x => indentStr (ind + 2) ++ stringifyAux fuel (ind + 2) x))
        ++ "\n" ++ indentStr ind ++ "]"
    | JValue.obj [] => "\x7b\x7d"
    | JValue.obj kvs =>
      "\x7b\n"
        ++ joinSep ",\n"
            (kvs.map (fun kv =>
              indentStr (ind + 2) ++ quoteJsonStr kv.1 ++ ": "
                ++ stringifyAux fuel (ind + 2) kv.2))
        ++ "\n" ++ indentStr ind ++ "\x7d"

/-- `JSON.stringify(v, null, 2)` from the top level, for any fuel at least
the nesting depth of `v` (the fuel only cuts recursion that the values in
play never reach). -/
def jsonStringify2 (fuel : Nat) (v : JValue) : String :=
  stringifyAux fuel 0 v

/-- The formattedJson computation of the json preview handler
(src/src/preview-handlers.js lines 159-165, identically src/unnamed/part_001
lines 466-472 and src/src/main.js lines 1009-1015): try the structured
parse and pretty-print with 2-space indent; the caught parse failure falls
back to the raw content. A value parsed from the content nests no deeper
than the content's length, so that length plus one is sufficient fuel. -/
def formattedJson (fileContent : String) : String :=
  match jsonParse fileContent with
  | some parsed => jsonStringify2 (fileContent.data.length + 1) parsed
  | none => fileContent

/-- Literal segment of the json preview template
(src/src/preview-handlers.js lines 167-189) before the title file name. -/
def jsonPHSeg0 : String :=
  "\n<!DOCTYPE html>\n<html lang=\"en\">\n<head>\n    <meta charset=\"UTF-8\">\n    <title>JSON Preview - "

/-- Segment between the title file name and the filename div. -/
def jsonPHSeg1 : String :=
  "</title>\n    <style>\n        body \x7b font-family: \x27Courier New\x27, monospace; margin: 20px; background: #f5f5f5; \x7d\n        .json-container \x7b background: white; padding: 20px; border-radius: 5px; box-shadow: 0 2px 4px rgba(0,0,0,0.1); \x7d\n        .filename \x7b color: #666; margin-bottom: 10px; font-weight: bold; \x7d\n        .json \x7b background: #f8f8f8; padding: 15px; border-radius: 3px; border-left: 4px solid #28a745; overflow-x: auto; \x7d\n        .json-content \x7b white-space: pre; color: #333; \x7d\n    </style>\n</head>\n<body>\n    <div class=\"json-container\">\n        <div class=\"filename\">"

/-- Segment between the filename div and the json-content slot. -/
def jsonPHSeg2 : String :=
  "</div>\n        <div class=\"json\">\n            <div class=\"json-content\">"

/-- Trailing segment after the json-content slot. -/
def jsonPHSeg3 : String :=
  "</div>\n        </div>\n    </div>\n</body>\n</html>"

/-- The json preview handler (src/src/preview-handlers.js lines 156-196):
the template with the file name in the title and filename slots and the
angle-bracket-escaped formattedJson in the json-content slot. The
src/unnamed/part_001 copy (lines 465-500) differs only in its no-op
angle-bracket replacement. -/
def jsonPreviewContent (fileContent fileName : String) : String :=
  jsonPHSeg0 ++ fileName ++ jsonPHSeg1 ++ fileName ++ jsonPHSeg2
    ++ escapeAngles (formattedJson fileContent) ++ jsonPHSeg3

/-- C6: json preview generation is total (the parse failure is caught and
becomes the fallback branch, never an exception to the caller): when the
content parses, the output embeds the parsed value pretty-printed with
2-space indentation (angle-bracket-escaped); when parsing fails, the same
document — not an error document — embeds the original content verbatim
modulo the angle-bracket escaping. -/
theorem jsonPreview_total_and_faithful (fileName fileContent : String) :
    (∀ v, jsonParse fileContent = some v →
      jsonPreviewContent fileContent fileName
        = jsonPHSeg0 ++ fileName ++ jsonPHSeg1 ++ fileName ++ jsonPHSeg2
            ++ escapeAngles (jsonStringify2 (fileContent.data.length + 1) v)
            ++ jsonPHSeg3)
  ∧ (jsonParse fileContent = none →
      jsonPreviewContent fileContent fileName
        = jsonPHSeg0 ++ fileName ++ jsonPHSeg1 ++ fileName ++ jsonPHSeg2
            ++ escapeAngles fileContent ++ jsonPHSeg3) := by
  constructor
  · intro v hv
    unfold jsonPreviewContent formattedJson
    rw [hv]
  · intro hv
    unfold jsonPreviewContent formattedJson
    rw [hv]

/-- Witness for C6, at the spec's own example inputs: the well-formed
object pretty-prints to the expected two-line form and is embedded; the
malformed input is embedded verbatim (it contains no angle brackets, so the
escaping leaves it untouched). -/
theorem jsonPreview_total_and_faithful_witness :
    jsonParse "\x7b\"a\":1\x7d" = some (JValue.obj [("a", JValue.num "1")])
  ∧ jsonStringify2 8 (JValue.obj [("a", JValue.num "1")]) = "\x7b\n  \"a\": 1\n\x7d"
  ∧ jsonPreviewContent "\x7b\"a\":1\x7d" "d.json"
      = jsonPHSeg0 ++ "d.json" ++ jsonPHSeg1 ++ "d.json" ++ jsonPHSeg2
          ++ escapeAngles (jsonStringify2 8 (JValue.obj [("a", JValue.num "1")]))
          ++ jsonPHSeg3
  ∧ jsonParse "\x7bbad json" = none
  ∧ jsonPreviewContent "\x7bbad json" "d.json"
      = jsonPHSeg0 ++ "d.json" ++ jsonPHSeg1 ++ "d.json" ++ jsonPHSeg2
          ++ escapeAngles "\x7bbad json" ++ jsonPHSeg3 :=
  ⟨rfl, rfl,
   (jsonPreview_total_and_faithful "d.json" "\x7b\"a\":1\x7d").1
     (JValue.obj [("a", JValue.num "1")]) rfl,
   rfl,
   (jsonPreview_total_and_faithful "d.json" "\x7bbad json").2 rfl⟩

end GLE
